import Mathlib

/-!
Verification development for the fall-detection pipeline of `utils.py`
(`FeatureExtractor` / `KeyPoints`).

Modelling conventions (shallow embedding):
* A possibly-NaN float is `Option ℝ`; `none` models IEEE NaN and every
  arithmetic operation propagates it, exactly as NumPy does.
* A keypoint is a pair of possibly-NaN coordinates; a whole-frame detection
  result is a `List Pt`, the empty list modelling total detection failure
  (`detectPoints` returns `[]`).
* The external detector (whose output `processVideo` / `realTimeVideo`
  consumes) always returns either `[]` or a 17-point COCO keypoint array;
  index lookups are therefore modelled with `List.getD` (the default is
  never reached on the schema-conforming inputs the theorems quantify over).
* Fallible paths (Python exceptions: fancy-indexing a plain list with an
  index array, `collectData` applied to the integer `0` initial value,
  `np.dot` shape mismatch) are modelled with `Except String`.
* The smoothing arithmetic is also transcribed over `ℚ` (`bSmoothGo`,
  `rtSmoothGo`) so the sliding-window facts can be decided by evaluation;
  the values fed to the smoother in the claims are rational.
-/

namespace FallDet

/-- A possibly-undefined (NaN) floating-point value; `none` models NaN. -/
abbrev NFloat := Option ℝ

/-- A 2-D keypoint; each coordinate may be NaN. -/
abbrev Pt := NFloat × NFloat

/-- NaN-propagating subtraction. -/
noncomputable def sub1 : NFloat → NFloat → NFloat
  | some x, some y => some (x - y)
  | _, _ => none

/-- One entry of `np.abs(vector1_angles - vector2_angles)`: NaN-propagating
absolute difference. -/
noncomputable def absDiff (a b : NFloat) : NFloat := (sub1 a b).map (fun t => |t|)

/-- NaN-propagating mean of two scalars (`.mean(axis=1)` over a 2-slice). -/
noncomputable def mean2 : NFloat → NFloat → NFloat
  | some x, some y => some ((x + y) / 2)
  | _, _ => none

/-- Embedding of `np.nanmean`: mean of the defined entries; an all-NaN input
yields NaN. -/
noncomputable def nanmeanL (xs : List NFloat) : NFloat :=
  let ds := xs.filterMap id
  if ds.length = 0 then none else some (ds.sum / (ds.length : ℝ))

/-- Embedding of `np.nansum`: sum of the defined entries (0 when all are NaN,
never NaN itself). -/
noncomputable def nansumL (xs : List NFloat) : ℝ := (xs.filterMap id).sum

/-- NaN-propagating sum of a list: `np.dot` with all-ones weights touches every
entry, so one NaN poisons the result. -/
noncomputable def nfSum (xs : List NFloat) : NFloat :=
  xs.foldr (fun a b => match a, b with | some x, some y => some (x + y) | _, _ => none) (some 0)

/-- `handleMissingValues` on one coordinate: `np.where(keypoints < 0, np.nan,
keypoints)` — negative predictions become NaN, NaN stays NaN (NaN < 0 is
false). -/
noncomputable def handleCoord : NFloat → NFloat
  | none => none
  | some x => if x < 0 then none else some x

/-- `handleMissingValues` on one keypoint. -/
noncomputable def handlePt (p : Pt) : Pt := (handleCoord p.1, handleCoord p.2)

/-- `FeatureExtractor.handleMissingValues`: empty input passes through, on a
non-empty array negative coordinates are replaced by NaN. -/
noncomputable def handleMissingValues (l : List Pt) : List Pt :=
  if l = [] then l else l.map handlePt

/-- Keypoint lookup `keypoints[i]`.  On the schema-conforming inputs the
claims quantify over (17 raw points, hence at least 22 after augmentation)
every index used is in range, so the `getD` default is never produced. -/
def getP (l : List Pt) (i : ℕ) : Pt := l.getD i (none, none)

/-- The five derived points `addExtraPoints` appends: shoulder midpoint
(`torso_up`, mean of points 5 and 6), hip midpoint (`torso_down`, mean of
points 11 and 12), head centroid (`np.nanmean` of the first five points,
per axis) and the two fixed calibration points (1,1), (1,100), in that
order. -/
noncomputable def extrasOf (l : List Pt) : List Pt :=
  [ (mean2 (getP l 5).1 (getP l 6).1, mean2 (getP l 5).2 (getP l 6).2),
    (mean2 (getP l 11).1 (getP l 12).1, mean2 (getP l 11).2 (getP l 12).2),
    (nanmeanL ((l.take 5).map Prod.fst), nanmeanL ((l.take 5).map Prod.snd)),
    (some 1, some 1), (some 1, some 100) ]

/-- `FeatureExtractor.addExtraPoints`: empty input passes through, otherwise
the five derived points are stacked below the input. -/
noncomputable def addExtraPoints (l : List Pt) : List Pt :=
  if l = [] then l else l ++ extrasOf l

/-- `FeatureExtractor.collectData`: missing-value handling, then
augmentation. -/
noncomputable def collectData (l : List Pt) : List Pt :=
  addExtraPoints (handleMissingValues l)

/-- `self.vector_indices`: the 12 point-index pairs defining the directional
vectors over the augmented set. -/
def vectorIndices : List (ℕ × ℕ) :=
  [(19,17),(19,18),(6,12),(5,11),(6,8),(5,7),(12,14),(11,13),(11,12),(13,15),(14,16),(20,21)]

/-- `self.pair_indices`: the 8 pairs of vector-table indices, one per angle
feature. -/
def pairIndices : List (ℕ × ℕ) := [(4,2),(5,3),(6,10),(7,9),(8,6),(8,7),(0,11),(1,11)]

/-- Difference vector of a vector-table entry: first referenced point minus
second referenced point, per axis (`vectors[:,:,0] - vectors[:,:,1]`). -/
noncomputable def vecOf (l : List Pt) (vi : ℕ × ℕ) : Pt :=
  (sub1 (getP l vi.1).1 (getP l vi.2).1, sub1 (getP l vi.1).2 (getP l vi.2).2)

/-- `np.linalg.norm` of a difference vector, NaN-propagating. -/
noncomputable def vecNorm : Pt → NFloat
  | (some x, some y) => some (Real.sqrt (x ^ 2 + y ^ 2))
  | _ => none

/-- `FeatureExtractor.angleCalculation` on one vector pair: cosine is
`dot / (|a|·|b|)`, the angle is `arccos` in degrees.  A NaN coordinate
propagates; a zero norm product means one vector is zero, hence the dot
product is 0 and NumPy computes `arccos(0/0) = NaN`, modelled by `none`. -/
noncomputable def anglePair : Pt → Pt → NFloat
  | (some x1, some y1), (some x2, some y2) =>
      let nrm := Real.sqrt (x1 ^ 2 + y1 ^ 2) * Real.sqrt (x2 ^ 2 + y2 ^ 2)
      if nrm = 0 then none
      else some (Real.arccos ((x1 * x2 + y1 * y2) / nrm) * 180 / Real.pi)
  | _, _ => none

/-- An 8-entry angle feature vector. -/
abbrev AngleVec := Fin 8 → NFloat

/-- `self.angle_weights = np.ones((8,1))`: the default per-angle weights. -/
def angleWeights : Fin 8 → ℝ := fun _ => 1

/-- The two difference vectors of angle pair `i`, gathered as
`keypoints[vector_indices][pair_indices]`. -/
noncomputable def pairVecs (l : List Pt) (i : Fin 8) : Pt × Pt :=
  let pr := pairIndices.getD i.val (0, 0)
  (vecOf l (vectorIndices.getD pr.1 (0, 0)), vecOf l (vectorIndices.getD pr.2 (0, 0)))

/-- The angle vector of an augmented keypoint set: for each angle pair, gather
the two vectors (`keypoints[vector_indices][pair_indices]`), compute the angle
and scale by the angle weight. -/
noncomputable def angleVec (l : List Pt) : AngleVec := fun i =>
  (anglePair (pairVecs l i).1 (pairVecs l i).2).map (fun a => a * angleWeights i)

/-- `np.count_nonzero(np.isnan(angles))`: number of NaN entries of an angle
vector. -/
def nanCount8 (v : AngleVec) : ℕ :=
  (Finset.univ.filter (fun i : Fin 8 => (v i).isNone = true)).card

/-- `FeatureExtractor.differenceMean`: NaN-mean of the absolute angle
differences, scaled by `self.fps = 6`. -/
noncomputable def differenceMean (v1 v2 : AngleVec) : NFloat :=
  (nanmeanL (List.ofFn (fun i => absDiff (v1 i) (v2 i)))).map (fun t => t * 6)

/-- `FeatureExtractor.meanDifference`: absolute difference of the two NaN-means. -/
noncomputable def meanDifference (v1 v2 : AngleVec) : NFloat :=
  (sub1 (nanmeanL (List.ofFn v1)) (nanmeanL (List.ofFn v2))).map (fun t => |t|)

/-- `FeatureExtractor.differenceSum`: NaN-sum of the absolute angle
differences (never NaN). -/
noncomputable def differenceSum (v1 v2 : AngleVec) : NFloat :=
  some (nansumL (List.ofFn (fun i => absDiff (v1 i) (v2 i))))

/-- `FeatureExtractor.costMean`: NaN-mean of the current angles. -/
noncomputable def costMean (v : AngleVec) : NFloat := nanmeanL (List.ofFn v)

/-- The `np.where(vector1_angles == 0, np.nan, vector1_angles)` remap inside
`divisionCost`. -/
noncomputable def zeroRemap : NFloat → NFloat
  | none => none
  | some x => if x = 0 then none else some x

/-- `FeatureExtractor.divisionCost`: current angles divided by (zero-remapped
previous angles + 1e-6), NaN-summed.  Angles are non-negative, so after the
zero remap a defined denominator is strictly positive; real division
therefore coincides with the NumPy computation on every input the pipeline
produces. -/
noncomputable def divisionCost (v1 v2 : AngleVec) : NFloat :=
  some (nansumL (List.ofFn (fun i =>
    match zeroRemap (v1 i), v2 i with
    | some a, some b => some (b / (a + 1 / 1000000))
    | _, _ => none)))

/-- The cost-method dispatch of `processVideo` / `realTimeVideo`; an
unrecognized name is a fatal error. -/
noncomputable def computeCost (m : String) (v1 v2 : AngleVec) : Except String NFloat :=
  if m = "DifferenceMean" then .ok (differenceMean v1 v2)
  else if m = "DifferenceSum" then .ok (differenceSum v1 v2)
  else if m = "Division" then .ok (divisionCost v1 v2)
  else if m = "Mean" then .ok (costMean v2)
  else if m = "MeanDifference" then .ok (meanDifference v1 v2)
  else .error "Not Valid Method"

/-- `if np.isnan(cost): cost = previous_cost` — the undefined-cost
substitution. -/
def substCost (raw prev : NFloat) : NFloat := if raw.isNone then prev else raw

/-! ### The sliding-window smoother, transcribed over ℚ

In `processVideo` the `k`-th appended cost is produced at
`frame_index = step_size * k` (the seeding frame is `k = 0`), so the guard
`frame_index >= step_size * 6` is `6 ≤ k`; in `realTimeVideo` the guard
`frame_index >= step_size * cache_size` is `cache_size ≤ k`.  The folds below
transcribe lines 385-400 resp. 537-545 of `utils.py` with that sample
ordinal made explicit. -/

/-- Batch smoother body (`processVideo` lines 385-400): append the cost, and
once the sample ordinal reaches 6 emit `np.dot(ones(1,6), cache) / 6` and
drop the oldest cache entry. -/
def bSmoothGo (cache : List ℚ) (k : ℕ) : List ℚ → List ℚ
  | [] => []
  | c :: cs =>
      let cache1 := cache ++ [c]
      if 6 ≤ k then (cache1.sum / 6) :: bSmoothGo cache1.tail (k + 1) cs
      else bSmoothGo cache1 (k + 1) cs

/-- The batch smoother run on a raw-cost sequence (first cost has ordinal 1). -/
def batchSmooth (costs : List ℚ) : List ℚ := bSmoothGo [] 1 costs

/-- Real-time smoother body (`realTimeVideo` lines 537-545): append the cost,
and once the sample ordinal reaches `cache_size` emit the mean of the current
cache (`np.dot(ones(1,len)/len, cache)`) and drop the oldest entry. -/
def rtSmoothGo (cz : ℕ) (cache : List ℚ) (k : ℕ) : List ℚ → List ℚ
  | [] => []
  | c :: cs =>
      let cache1 := cache ++ [c]
      if cz ≤ k then (cache1.sum / (cache1.length : ℚ)) :: rtSmoothGo cz cache1.tail (k + 1) cs
      else rtSmoothGo cz cache1 (k + 1) cs

/-- The real-time smoother run on a raw-cost sequence. -/
def rtSmooth (cz : ℕ) (costs : List ℚ) : List ℚ := rtSmoothGo cz [] 1 costs

/-- The smoother behaviour the specification describes: one stride-1 uniform
window mean per sample from the 6th sample on, nothing before. -/
def specSlidingMeans (costs : List ℚ) : List ℚ :=
  (List.range (costs.length - 5)).map (fun i => (((costs.drop i).take 6).sum) / 6)

/-! ### The stream drivers -/

/-- The session state carried across frames by `processVideo` /
`realTimeVideo`.  `prevKeypoints = none` models the integer `0` both
functions initialize `previous_keypoints` with. -/
structure PState where
  frameIndex : ℕ
  prevKeypoints : Option (List Pt)
  prevCost : NFloat
  cache : List NFloat
  costlist : List NFloat

/-- The state both drivers start a stream with. -/
def initState : PState := ⟨0, none, some 0, [], []⟩

/-- One sampled frame of `processVideo` (batch mode), `d` being the detector
output for the frame.  Faithful details: there is no empty-detection check;
an empty previous or current keypoint *list* reaches
`list[self.vector_indices]`, a Python `TypeError`; a degenerate pair
(`>= 6` NaN angles on either side) hits a bare `continue`, so the frame
counter does **not** advance and the already-augmented
`previous_keypoints` stays; `np.dot(ones((1,6)), cache)` raises unless the
cache holds exactly 6 entries. -/
noncomputable def batchSampled (m : String) (s : PState) (d : List Pt) : Except String PState :=
  if s.frameIndex = 0 then
    .ok { s with prevKeypoints := some d, prevCost := some 0, frameIndex := s.frameIndex + 1 }
  else
    match s.prevKeypoints with
    | none => .error "IndexError: collectData applied to integer 0"
    | some pk =>
        let pk1 := collectData pk
        let ck := collectData d
        if pk1 = [] ∨ ck = [] then .error "TypeError: list indices must be integers"
        else
          let v1 := angleVec pk1
          let v2 := angleVec ck
          if 6 ≤ nanCount8 v1 ∨ 6 ≤ nanCount8 v2 then
            .ok { s with prevKeypoints := some pk1 }
          else
            match computeCost m v1 v2 with
            | .error e => .error e
            | .ok raw =>
                let cost := substCost raw s.prevCost
                let cache1 := s.cache ++ [cost]
                if 5 * 6 ≤ s.frameIndex then
                  if cache1.length = 6 then
                    .ok { frameIndex := s.frameIndex + 1, prevKeypoints := some ck,
                          prevCost := cost, cache := cache1.tail,
                          costlist := s.costlist ++ [(nfSum cache1).map (fun t => t / 6)] }
                  else .error "ValueError: shapes not aligned"
                else
                  .ok { frameIndex := s.frameIndex + 1, prevKeypoints := some ck,
                        prevCost := cost, cache := cache1, costlist := s.costlist }

/-- One frame of `processVideo`: only every `step_size`-th frame is
processed (`step_size = 30 // 6 = 5`), the rest just advance the counter. -/
noncomputable def batchFrame (m : String) (s : PState) (d : List Pt) : Except String PState :=
  if s.frameIndex % 5 = 0 then batchSampled m s d
  else .ok { s with frameIndex := s.frameIndex + 1 }

/-- The batch driver loop over a finite stream of per-frame detector outputs. -/
noncomputable def batchGo (m : String) : PState → List (List Pt) → Except String PState
  | s, [] => .ok s
  | s, d :: ds =>
      match batchFrame m s d with
      | .error e => .error e
      | .ok s1 => batchGo m s1 ds

/-- `FeatureExtractor.processVideo`: a reported rate other than 30 fps is
fatal before any frame is read; otherwise run the stream from the initial
state. -/
noncomputable def batchRun (fps : ℚ) (m : String) (ds : List (List Pt)) : Except String PState :=
  if fps = 30 then batchGo m initState ds else .error "Video is not in 30 FPS!"

/-- Python `round` (banker's rounding, ties to the even integer). -/
def pythonRound (q : ℚ) : ℤ :=
  let f := ⌊q⌋
  let r := q - (f : ℚ)
  if r < 1 / 2 then f
  else if 1 / 2 < r then f + 1
  else if 2 ∣ f then f else f + 1

/-- The rate handling of `realTimeVideo` (lines 465-476): round the reported
rate; substitute 30 for a webcam rate below 1; reject a file rate below 5;
step size is `max(1, fps // 6)`.  Returns (step size, effective fps). -/
def rtSetup (fpsRaw : ℚ) (isWebcam : Bool) : Except String (ℤ × ℤ) :=
  let f0 := pythonRound fpsRaw
  let f1 := if f0 < 1 ∧ isWebcam = true then 30 else f0
  if f1 < 5 ∧ isWebcam = false then .error "Error: Video FPS too low (less than 5)"
  else .ok (max 1 (f1.fdiv 6), f1)

/-- One sampled frame of `realTimeVideo`.  Differences from batch: an empty
detection is skipped up front (counter advances, nothing else changes); a
degenerate pair advances the counter; the emission guard uses `cache_size`
and the emitted value divides by the actual cache length.  A first sampled
frame with empty detection leaves `previous_keypoints = 0`, and the next
non-empty sampled frame then crashes inside `collectData` (caught by the
`try`, surfacing as an error return). -/
noncomputable def rtSampled (m : String) (step cz : ℕ) (s : PState) (d : List Pt) :
    Except String PState :=
  if d.length = 0 then .ok { s with frameIndex := s.frameIndex + 1 }
  else if s.frameIndex = 0 then
    .ok { s with prevKeypoints := some d, prevCost := some 0, frameIndex := s.frameIndex + 1 }
  else
    match s.prevKeypoints with
    | none => .error "Error during processing: IndexError"
    | some pk =>
        let pk1 := collectData pk
        let ck := collectData d
        let v1 := angleVec pk1
        let v2 := angleVec ck
        if 6 ≤ nanCount8 v1 ∨ 6 ≤ nanCount8 v2 then
          .ok { s with prevKeypoints := some pk1, frameIndex := s.frameIndex + 1 }
        else
          match computeCost m v1 v2 with
          | .error e => .error e
          | .ok raw =>
              let cost := substCost raw s.prevCost
              let cache1 := s.cache ++ [cost]
              if step * cz ≤ s.frameIndex then
                .ok { frameIndex := s.frameIndex + 1, prevKeypoints := some ck,
                      prevCost := cost, cache := cache1.tail,
                      costlist := s.costlist ++
                        [(nfSum cache1).map (fun t => t / (cache1.length : ℝ))] }
              else
                .ok { frameIndex := s.frameIndex + 1, prevKeypoints := some ck,
                      prevCost := cost, cache := cache1, costlist := s.costlist }

/-- One frame of `realTimeVideo`. -/
noncomputable def rtFrame (m : String) (step cz : ℕ) (s : PState) (d : List Pt) :
    Except String PState :=
  if s.frameIndex % step = 0 then rtSampled m step cz s d
  else .ok { s with frameIndex := s.frameIndex + 1 }

/-- The real-time driver loop. -/
noncomputable def rtGo (m : String) (step cz : ℕ) : PState → List (List Pt) → Except String PState
  | s, [] => .ok s
  | s, d :: ds =>
      match rtFrame m step cz s d with
      | .error e => .error e
      | .ok s1 => rtGo m step cz s1 ds

/-- `FeatureExtractor.realTimeVideo`: rate setup, then the loop;
`cache_size = min(6, step_size * 6 // max(1, video_fps))`, constant over the
run. -/
noncomputable def rtRun (fpsRaw : ℚ) (isWebcam : Bool) (m : String) (ds : List (List Pt)) :
    Except String PState :=
  match rtSetup fpsRaw isWebcam with
  | .error e => .error e
  | .ok sf =>
      let cz := min 6 ((sf.1 * 6).fdiv (max 1 sf.2))
      rtGo m sf.1.toNat cz.toNat initState ds

/-- `FeatureExtractor.chooseThreshold`: per-method threshold lookup; an
unknown method keeps the current threshold (initialized to 10). -/
def chooseThreshold (m : String) (cur : ℚ) : ℚ :=
  if m = "DifferenceMean" then 58
  else if m = "DifferenceSum" then 55
  else if m = "MeanDifference" then 5
  else if m = "Mean" then 37
  else if m = "Division" then 17 / 2
  else cur

/-- The classification of `realTimeVideo` line 553: fall iff the latest
smoothed cost is strictly greater than the threshold. -/
def fallStatus (latest threshold : ℚ) : Bool := threshold < latest

/-! ### Smoother lemmas -/

lemma rtSmoothGo_one (cs : List ℚ) : ∀ k, 1 ≤ k → rtSmoothGo 1 [] k cs = cs := by
  induction cs with
  | nil => intro k _; rfl
  | cons c cs ih =>
      intro k hk
      simp only [rtSmoothGo, List.nil_append, if_pos hk]
      simp [ih (k + 1) (by omega)]

lemma bSmoothGo_steady (cs : List ℚ) :
    ∀ cache k, 6 ≤ k → cache.length = 5 →
    bSmoothGo cache k cs =
      (List.range cs.length).map (fun i => (((cache ++ cs).drop i).take 6).sum / 6) := by
  induction cs with
  | nil => intro cache k _ _; simp [bSmoothGo]
  | cons c cs ih =>
      intro cache k hk hlen
      obtain ⟨a, tl, rfl⟩ : ∃ a tl, cache = a :: tl := by
        cases cache with
        | nil => simp at hlen
        | cons a tl => exact ⟨a, tl, rfl⟩
      have htl : tl.length = 4 := by simpa using hlen
      simp only [bSmoothGo, if_pos hk]
      rw [List.length_cons, List.range_succ_eq_map, List.map_cons, List.map_map]
      refine congrArg₂ List.cons ?_ ?_
      · show (a :: tl ++ [c]).sum / 6 = ((List.take 6 (List.drop 0 (a :: tl ++ c :: cs))).sum) / 6
        rw [List.drop_zero, List.take_append_eq_append_take,
            List.take_of_length_le (l := a :: tl) (by simp [htl]),
            show 6 - (a :: tl).length = 1 by simp [htl]]
        simp
      · have hc1 : (a :: tl ++ [c] : List ℚ).tail = tl ++ [c] := by simp
        rw [hc1, ih (tl ++ [c]) (k + 1) (by omega) (by simp [htl])]
        refine List.map_congr_left ?_
        intro i _
        have hdrop : (tl ++ [c] ++ cs).drop i = (a :: tl ++ c :: cs).drop (i + 1) := by
          have h2 : a :: tl ++ c :: cs = a :: (tl ++ [c] ++ cs) := by simp
          rw [h2, List.drop_succ_cons]
        simp only [Function.comp, hdrop, Nat.succ_eq_add_one]

lemma bSmoothGo_warm (cs : List ℚ) :
    ∀ cache k, 1 ≤ k → k ≤ 6 → cache.length = k - 1 →
    bSmoothGo cache k cs =
      (List.range ((cache.length + cs.length) - 5)).map
        (fun i => (((cache ++ cs).drop i).take 6).sum / 6) := by
  induction cs with
  | nil =>
      intro cache k h1 h6 hlen
      have h0 : (cache.length + ([] : List ℚ).length) - 5 = 0 := by
        simp only [List.length_nil, Nat.add_zero]; omega
      simp only [bSmoothGo]
      rw [h0]
      simp
  | cons c cs ih =>
      intro cache k h1 h6 hlen
      rcases eq_or_lt_of_le h6 with h6e | h6l
      · subst h6e
        have hl5 : cache.length = 5 := by omega
        rw [bSmoothGo_steady (c :: cs) cache 6 le_rfl hl5]
        have : (cache.length + (c :: cs).length) - 5 = (c :: cs).length := by
          simp [hl5]
        rw [this]
      · have hnot : ¬ (6 ≤ k) := by omega
        simp only [bSmoothGo, if_neg hnot]
        rw [ih (cache ++ [c]) (k + 1) (by omega) (by omega) (by simp [hlen]; omega)]
        have hfix : (cache ++ [c]).length + cs.length - 5 =
            cache.length + (c :: cs).length - 5 := by simp; omega
        have happ : cache ++ [c] ++ cs = cache ++ c :: cs := by simp
        rw [hfix, happ]

/-! ### Option and NaN-count helpers -/

lemma optionMap_isNone {α β : Type} (f : α → β) (o : Option α) :
    (o.map f).isNone = o.isNone := by cases o <;> rfl

lemma nanCount8_eq_zero (v : AngleVec) (h : ∀ i, (v i).isNone = false) : nanCount8 v = 0 := by
  unfold nanCount8
  rw [Finset.card_eq_zero, Finset.filter_eq_empty_iff]
  intro i _
  simp [h i]

lemma nanCount8_eq_eight (v : AngleVec) (h : ∀ i, v i = none) : nanCount8 v = 8 := by
  unfold nanCount8
  rw [Finset.filter_true_of_mem (fun i _ => by simp [h i])]
  simp

lemma exists_isSome_of_nanCount8_le (v : AngleVec) (h : nanCount8 v ≤ 5) :
    ∃ i, (v i).isSome = true := by
  by_contra hc
  push_neg at hc
  have hall : ∀ i, v i = none := by
    intro i
    have := hc i
    cases hv : v i with
    | none => rfl
    | some a => rw [hv] at this; simp at this
  rw [nanCount8_eq_eight v hall] at h
  omega

/-! ### Self-comparison lemmas for the cost methods -/

lemma absDiff_self_mem_zero (v : AngleVec) (x : ℝ)
    (hx : x ∈ (List.ofFn (fun i => absDiff (v i) (v i))).filterMap id) : x = 0 := by
  rw [List.mem_filterMap] at hx
  obtain ⟨a, ha, hax⟩ := hx
  rw [List.mem_ofFn] at ha
  obtain ⟨i, hi⟩ := ha
  have hi2 : absDiff (v i) (v i) = a := hi
  cases hv : v i with
  | none => rw [hv] at hi2; simp [absDiff, sub1] at hi2; rw [← hi2] at hax; simp [id] at hax
  | some t =>
      rw [hv] at hi2
      simp only [absDiff, sub1, Option.map_some'] at hi2
      rw [← hi2] at hax
      simp only [id, Option.some.injEq] at hax
      rw [← hax]
      simp

lemma differenceSum_self (v : AngleVec) : differenceSum v v = some 0 := by
  unfold differenceSum nansumL
  congr 1
  exact List.sum_eq_zero (fun x hx => absDiff_self_mem_zero v x hx)

lemma differenceMean_self (v : AngleVec) (h : ∃ i, (v i).isSome = true) :
    differenceMean v v = some 0 := by
  obtain ⟨i0, hi0⟩ := h
  obtain ⟨t0, ht0⟩ := Option.isSome_iff_exists.mp hi0
  unfold differenceMean nanmeanL
  have hmem : (0 : ℝ) ∈ (List.ofFn (fun i => absDiff (v i) (v i))).filterMap id := by
    rw [List.mem_filterMap]
    refine ⟨some 0, ?_, rfl⟩
    rw [List.mem_ofFn]
    exact ⟨i0, by simp [absDiff, sub1, ht0]⟩
  have hne : ((List.ofFn (fun i => absDiff (v i) (v i))).filterMap id).length ≠ 0 := by
    intro h0
    rw [List.length_eq_zero] at h0
    exact List.ne_nil_of_mem hmem h0
  rw [if_neg hne]
  have hz : ((List.ofFn (fun i => absDiff (v i) (v i))).filterMap id).sum = 0 :=
    List.sum_eq_zero (fun x hx => absDiff_self_mem_zero v x hx)
  rw [hz]
  simp only [Option.map_some', zero_div, zero_mul]

lemma nanmeanL_ofFn_isSome (v : AngleVec) (h : ∃ i, (v i).isSome = true) :
    ∃ m, nanmeanL (List.ofFn v) = some m := by
  obtain ⟨i0, hi0⟩ := h
  obtain ⟨t0, ht0⟩ := Option.isSome_iff_exists.mp hi0
  unfold nanmeanL
  have hmem : t0 ∈ (List.ofFn v).filterMap id := by
    rw [List.mem_filterMap]
    exact ⟨some t0, by rw [List.mem_ofFn]; exact ⟨i0, ht0⟩, rfl⟩
  have hne : ((List.ofFn v).filterMap id).length ≠ 0 := by
    intro h0
    rw [List.length_eq_zero] at h0
    exact List.ne_nil_of_mem hmem h0
  rw [if_neg hne]
  exact ⟨_, rfl⟩

lemma meanDifference_self (v : AngleVec) (h : ∃ i, (v i).isSome = true) :
    meanDifference v v = some 0 := by
  obtain ⟨m, hm⟩ := nanmeanL_ofFn_isSome v h
  unfold meanDifference
  rw [hm]
  simp [sub1]

/-! ### Structural lemmas about `collectData` -/

/-- A possibly-NaN value that is not a negative number. -/
def coordNoNeg (c : NFloat) : Prop := ∀ a, c = some a → 0 ≤ a

/-- A keypoint with no negative coordinate. -/
def ptNoNeg (p : Pt) : Prop := coordNoNeg p.1 ∧ coordNoNeg p.2

lemma handleCoord_eq_of (c : NFloat) (h : coordNoNeg c) : handleCoord c = c := by
  cases c with
  | none => rfl
  | some x => simp [handleCoord, not_lt.mpr (h x rfl)]

lemma handlePt_eq_of (p : Pt) (h : ptNoNeg p) : handlePt p = p := by
  obtain ⟨c1, c2⟩ := p
  simp [handlePt, handleCoord_eq_of c1 h.1, handleCoord_eq_of c2 h.2]

lemma handleMissingValues_eq_of (l : List Pt) (h : ∀ p ∈ l, ptNoNeg p) :
    handleMissingValues l = l := by
  unfold handleMissingValues
  split
  · rfl
  · rw [List.map_congr_left (fun p hp => handlePt_eq_of p (h p hp))]
    exact List.map_id' l

lemma handleCoord_noNeg (c : NFloat) : coordNoNeg (handleCoord c) := by
  cases c with
  | none => intro a ha; cases ha
  | some x =>
      intro a ha
      by_cases hx : x < 0
      · simp [handleCoord, hx] at ha
      · simp [handleCoord, hx] at ha
        subst ha
        exact not_lt.mp hx

lemma handleMissingValues_noNeg (l : List Pt) :
    ∀ p ∈ handleMissingValues l, ptNoNeg p := by
  intro p hp
  unfold handleMissingValues at hp
  split at hp
  · subst_vars; cases hp
  · rw [List.mem_map] at hp
    obtain ⟨q, _, rfl⟩ := hp
    exact ⟨handleCoord_noNeg q.1, handleCoord_noNeg q.2⟩

lemma mean2_noNeg (a b : NFloat) (ha : coordNoNeg a) (hb : coordNoNeg b) :
    coordNoNeg (mean2 a b) := by
  cases a with
  | none => intro t ht; cases ht
  | some x =>
      cases b with
      | none => intro t ht; cases ht
      | some y =>
          intro t ht
          simp only [mean2, Option.some.injEq] at ht
          have := ha x rfl
          have := hb y rfl
          rw [← ht]
          positivity

lemma nanmeanL_noNeg (xs : List NFloat) (h : ∀ c ∈ xs, coordNoNeg c) :
    coordNoNeg (nanmeanL xs) := by
  by_cases h0 : (xs.filterMap id).length = 0
  · simp only [nanmeanL, if_pos h0]
    intro t ht; cases ht
  · simp only [nanmeanL, if_neg h0]
    intro t ht
    simp only [Option.some.injEq] at ht
    rw [← ht]
    apply div_nonneg
    · apply List.sum_nonneg
      intro x hx
      rw [List.mem_filterMap] at hx
      obtain ⟨c, hc, hcx⟩ := hx
      exact h c hc x hcx
    · positivity

lemma getP_noNeg (l : List Pt) (h : ∀ p ∈ l, ptNoNeg p) (i : ℕ) : ptNoNeg (getP l i) := by
  unfold getP
  by_cases hi : i < l.length
  · rw [List.getD_eq_getElem l _ hi]
    exact h _ (List.getElem_mem hi)
  · rw [List.getD_eq_default _ _ (by omega)]
    refine ⟨fun a ha => ?_, fun a ha => ?_⟩ <;> cases ha

lemma extrasOf_noNeg (l : List Pt) (h : ∀ p ∈ l, ptNoNeg p) :
    ∀ p ∈ extrasOf l, ptNoNeg p := by
  intro p hp
  have hP := getP_noNeg l h
  have hhead : ∀ g : Pt → NFloat, (∀ q : Pt, ptNoNeg q → coordNoNeg (g q)) →
      coordNoNeg (nanmeanL ((l.take 5).map g)) := by
    intro g hg
    apply nanmeanL_noNeg
    intro c hc
    rw [List.mem_map] at hc
    obtain ⟨q, hq, rfl⟩ := hc
    exact hg q (h q (List.mem_of_mem_take hq))
  simp only [extrasOf, List.mem_cons, List.not_mem_nil, or_false] at hp
  have hone : coordNoNeg (some (1 : ℝ)) := fun a ha => by
    simp only [Option.some.injEq] at ha; rw [← ha]; norm_num
  have hhundred : coordNoNeg (some (100 : ℝ)) := fun a ha => by
    simp only [Option.some.injEq] at ha; rw [← ha]; norm_num
  rcases hp with rfl | rfl | rfl | rfl | rfl
  · exact ⟨mean2_noNeg _ _ (hP 5).1 (hP 6).1, mean2_noNeg _ _ (hP 5).2 (hP 6).2⟩
  · exact ⟨mean2_noNeg _ _ (hP 11).1 (hP 12).1, mean2_noNeg _ _ (hP 11).2 (hP 12).2⟩
  · exact ⟨hhead Prod.fst (fun q hq => hq.1), hhead Prod.snd (fun q hq => hq.2)⟩
  · exact ⟨hone, hone⟩
  · exact ⟨hone, hhundred⟩

lemma collectData_noNeg (l : List Pt) : ∀ p ∈ collectData l, ptNoNeg p := by
  intro p hp
  unfold collectData addExtraPoints at hp
  split at hp
  · exact handleMissingValues_noNeg l p hp
  · rw [List.mem_append] at hp
    rcases hp with hp | hp
    · exact handleMissingValues_noNeg l p hp
    · exact extrasOf_noNeg _ (handleMissingValues_noNeg l) p hp

lemma handleMissingValues_ne_nil (l : List Pt) (h : l ≠ []) : handleMissingValues l ≠ [] := by
  unfold handleMissingValues
  rw [if_neg h]
  simpa using h

lemma collectData_eq_of (l : List Pt) (hne : l ≠ []) (h : ∀ p ∈ l, ptNoNeg p) :
    collectData l = l ++ extrasOf l := by
  unfold collectData addExtraPoints
  rw [handleMissingValues_eq_of l h, if_neg hne]

lemma collectData_length (l : List Pt) (hne : l ≠ []) :
    (collectData l).length = l.length + 5 := by
  unfold collectData addExtraPoints
  rw [if_neg (handleMissingValues_ne_nil l hne)]
  have : (handleMissingValues l).length = l.length := by
    unfold handleMissingValues
    rw [if_neg hne, List.length_map]
  simp [extrasOf, this]

lemma collectData_ne_nil (l : List Pt) (hne : l ≠ []) : collectData l ≠ [] := by
  intro h0
  have := collectData_length l hne
  rw [h0] at this
  simp at this

lemma getP_append (l e : List Pt) (i : ℕ) (h : i < l.length) :
    getP (l ++ e) i = getP l i := by
  unfold getP
  rw [List.getD_append _ _ _ _ h]

lemma vecOf_append (l e : List Pt) (vi : ℕ × ℕ) (h1 : vi.1 < l.length)
    (h2 : vi.2 < l.length) : vecOf (l ++ e) vi = vecOf l vi := by
  unfold vecOf
  rw [getP_append l e _ h1, getP_append l e _ h2]

lemma vectorIndices_lt (j : ℕ) :
    (vectorIndices.getD j (0, 0)).1 < 22 ∧ (vectorIndices.getD j (0, 0)).2 < 22 := by
  match j with
  | 0 | 1 | 2 | 3 | 4 | 5 | 6 | 7 | 8 | 9 | 10 | 11 => exact ⟨by decide, by decide⟩
  | n + 12 =>
      rw [List.getD_eq_default _ _ (by simp [vectorIndices])]
      exact ⟨by decide, by decide⟩

lemma angleVec_append (l e : List Pt) (h : 22 ≤ l.length) :
    angleVec (l ++ e) = angleVec l := by
  funext i
  have hv : ∀ j : ℕ, vecOf (l ++ e) (vectorIndices.getD j (0, 0)) =
      vecOf l (vectorIndices.getD j (0, 0)) := by
    intro j
    have hb := vectorIndices_lt j
    exact vecOf_append l e _ (by omega) (by omega)
  simp only [angleVec, pairVecs]
  rw [hv, hv]

lemma angleVec_collectData (l : List Pt) (hne : l ≠ []) (h : ∀ p ∈ l, ptNoNeg p)
    (hlen : 22 ≤ l.length) : angleVec (collectData l) = angleVec l := by
  rw [collectData_eq_of l hne h, angleVec_append l _ hlen]

/-! ### Characterization of `anglePair` -/

lemma anglePair_none_iff (d1 d2 : Pt) :
    anglePair d1 d2 = none ↔ (vecNorm d1 = none ∨ vecNorm d2 = none ∨
      vecNorm d1 = some 0 ∨ vecNorm d2 = some 0) := by
  obtain ⟨a1, b1⟩ := d1
  obtain ⟨a2, b2⟩ := d2
  rcases a1 with _ | x1 <;> rcases b1 with _ | y1 <;> rcases a2 with _ | x2 <;>
      rcases b2 with _ | y2 <;>
    try simp [anglePair, vecNorm]
  tauto

lemma anglePair_bounds (d1 d2 : Pt) (x : ℝ) (h : anglePair d1 d2 = some x) :
    0 ≤ x ∧ x ≤ 180 := by
  obtain ⟨a1, b1⟩ := d1
  obtain ⟨a2, b2⟩ := d2
  rcases a1 with _ | x1 <;> rcases b1 with _ | y1 <;> rcases a2 with _ | x2 <;>
      rcases b2 with _ | y2 <;> simp only [anglePair] at h <;> try cases h
  rcases ite_eq_iff.mp h with ⟨_, hc⟩ | ⟨hne, hc⟩
  · cases hc
  · have hx : x = Real.arccos ((x1 * x2 + y1 * y2) /
        (Real.sqrt (x1 ^ 2 + y1 ^ 2) * Real.sqrt (x2 ^ 2 + y2 ^ 2))) * 180 / Real.pi := by
      exact (Option.some.injEq _ _ ▸ hc).symm
    set c := (x1 * x2 + y1 * y2) / (Real.sqrt (x1 ^ 2 + y1 ^ 2) * Real.sqrt (x2 ^ 2 + y2 ^ 2))
    have h0 : 0 ≤ Real.arccos c := Real.arccos_nonneg c
    have h1 : Real.arccos c ≤ Real.pi := Real.arccos_le_pi c
    have hpi : 0 < Real.pi := Real.pi_pos
    constructor
    · rw [hx]; positivity
    · rw [hx, div_le_iff₀ hpi]
      nlinarith

lemma anglePair_none_of_left_normSq_zero {x1 y1 : ℝ} (h : x1 ^ 2 + y1 ^ 2 = 0) (d2 : Pt) :
    anglePair (some x1, some y1) d2 = none := by
  obtain ⟨a2, b2⟩ := d2
  rcases a2 with _ | x2 <;> rcases b2 with _ | y2 <;> simp [anglePair, h]

lemma anglePair_isSome_of_pos {x1 y1 x2 y2 : ℝ} (h1 : 0 < x1 ^ 2 + y1 ^ 2)
    (h2 : 0 < x2 ^ 2 + y2 ^ 2) :
    (anglePair (some x1, some y1) (some x2, some y2)).isNone = false := by
  have hz : Real.sqrt (x1 ^ 2 + y1 ^ 2) * Real.sqrt (x2 ^ 2 + y2 ^ 2) ≠ 0 :=
    (mul_pos (Real.sqrt_pos.mpr h1) (Real.sqrt_pos.mpr h2)).ne'
  simp [anglePair, hz]

lemma anglePair_value (x1 y1 x2 y2 : ℝ)
    (hz : Real.sqrt (x1 ^ 2 + y1 ^ 2) * Real.sqrt (x2 ^ 2 + y2 ^ 2) ≠ 0) :
    anglePair (some x1, some y1) (some x2, some y2) =
      some (Real.arccos ((x1 * x2 + y1 * y2) /
        (Real.sqrt (x1 ^ 2 + y1 ^ 2) * Real.sqrt (x2 ^ 2 + y2 ^ 2))) * 180 / Real.pi) := by
  simp [anglePair, hz]

/-! ### Concrete keypoint sets used by the concrete-run theorems -/

/-- A generic schema-conforming 17-point detection: point `n` sits at `(n, 0)`.
All body points are distinct, so every angle of its augmented set is defined. -/
noncomputable def K17 : List Pt :=
  [(some 0, some 0), (some 1, some 0), (some 2, some 0), (some 3, some 0),
   (some 4, some 0), (some 5, some 0), (some 6, some 0), (some 7, some 0),
   (some 8, some 0), (some 9, some 0), (some 10, some 0), (some 11, some 0),
   (some 12, some 0), (some 13, some 0), (some 14, some 0), (some 15, some 0),
   (some 16, some 0)]

/-- A degenerate 17-point detection: all points coincide, so every difference
vector between body points is zero and all eight angles are NaN. -/
noncomputable def Kdeg : List Pt :=
  [(some 0, some 0), (some 0, some 0), (some 0, some 0), (some 0, some 0),
   (some 0, some 0), (some 0, some 0), (some 0, some 0), (some 0, some 0),
   (some 0, some 0), (some 0, some 0), (some 0, some 0), (some 0, some 0),
   (some 0, some 0), (some 0, some 0), (some 0, some 0), (some 0, some 0),
   (some 0, some 0)]

lemma K17_length : K17.length = 17 := rfl

lemma K17_ne_nil : K17 ≠ [] := by
  intro h
  have := congrArg List.length h
  rw [K17_length] at this
  simp at this

lemma K17_noNeg : ∀ p ∈ K17, ptNoNeg p := by
  intro p hp
  have hcn : ∀ q : ℝ, 0 ≤ q → coordNoNeg (some q) := by
    intro q hq a ha
    simp only [Option.some.injEq] at ha
    rw [← ha]
    exact hq
  fin_cases hp <;> exact ⟨hcn _ (by norm_num), hcn _ (by norm_num)⟩

lemma Kdeg_length : Kdeg.length = 17 := rfl

lemma Kdeg_ne_nil : Kdeg ≠ [] := by
  intro h
  have := congrArg List.length h
  rw [Kdeg_length] at this
  simp at this

lemma Kdeg_noNeg : ∀ p ∈ Kdeg, ptNoNeg p := by
  intro p hp
  have hcn : ∀ q : ℝ, 0 ≤ q → coordNoNeg (some q) := by
    intro q hq a ha
    simp only [Option.some.injEq] at ha
    rw [← ha]
    exact hq
  fin_cases hp <;> exact ⟨hcn _ (by norm_num), hcn _ (by norm_num)⟩

lemma collectData_K17 : collectData K17 = K17 ++ extrasOf K17 :=
  collectData_eq_of K17 K17_ne_nil K17_noNeg

lemma collectData_Kdeg : collectData Kdeg = Kdeg ++ extrasOf Kdeg :=
  collectData_eq_of Kdeg Kdeg_ne_nil Kdeg_noNeg

lemma K17_head_fst : List.filterMap id ((K17.take 5).map Prod.fst) = [(0 : ℝ), 1, 2, 3, 4] := rfl

lemma K17_head_snd : List.filterMap id ((K17.take 5).map Prod.snd) = [(0 : ℝ), 0, 0, 0, 0] := rfl

lemma Kdeg_head_fst : List.filterMap id ((Kdeg.take 5).map Prod.fst) = [(0 : ℝ), 0, 0, 0, 0] := rfl

lemma Kdeg_head_snd : List.filterMap id ((Kdeg.take 5).map Prod.snd) = [(0 : ℝ), 0, 0, 0, 0] := rfl

lemma K17_head_fst' : List.filterMap id (List.take 5 (List.map Prod.fst K17)) =
    [(0 : ℝ), 1, 2, 3, 4] := rfl

lemma K17_head_snd' : List.filterMap id (List.take 5 (List.map Prod.snd K17)) =
    [(0 : ℝ), 0, 0, 0, 0] := rfl

lemma Kdeg_head_fst' : List.filterMap id (List.take 5 (List.map Prod.fst Kdeg)) =
    [(0 : ℝ), 0, 0, 0, 0] := rfl

lemma Kdeg_head_snd' : List.filterMap id (List.take 5 (List.map Prod.snd Kdeg)) =
    [(0 : ℝ), 0, 0, 0, 0] := rfl

lemma K17_angles_defined : ∀ i : Fin 8, (angleVec (K17 ++ extrasOf K17) i).isNone = false := by
  intro i
  fin_cases i <;>
  · simp only [angleVec]
    rw [optionMap_isNone]
    exact anglePair_isSome_of_pos
      (by norm_num [K17_head_fst, K17_head_snd, K17_head_fst', K17_head_snd',
        List.sum_cons, List.sum_nil])
      (by norm_num [K17_head_fst, K17_head_snd, K17_head_fst', K17_head_snd',
        List.sum_cons, List.sum_nil])

lemma Kdeg_angles_none : ∀ i : Fin 8, angleVec (Kdeg ++ extrasOf Kdeg) i = none := by
  intro i
  fin_cases i <;>
  · simp only [angleVec]
    rw [Option.map_eq_none']
    exact anglePair_none_of_left_normSq_zero
      (by norm_num [Kdeg_head_fst, Kdeg_head_snd, Kdeg_head_fst', Kdeg_head_snd',
        List.sum_cons, List.sum_nil]) _

/-! ### Driver step lemmas -/

lemma rtSampled_empty (m : String) (step cz : ℕ) (s : PState) :
    rtSampled m step cz s [] = .ok { s with frameIndex := s.frameIndex + 1 } := by
  simp [rtSampled]

lemma rtSampled_seed (m : String) (step cz : ℕ) (s : PState) (d : List Pt) (hd : d ≠ [])
    (h0 : s.frameIndex = 0) :
    rtSampled m step cz s d = .ok { s with
      prevKeypoints := some d
      prevCost := some 0
      frameIndex := s.frameIndex + 1 } := by
  have hlen : ¬ (d.length = 0) := by simpa [List.length_eq_zero] using hd
  simp [rtSampled, hlen, h0]

lemma rtSampled_uninit (m : String) (step cz : ℕ) (s : PState) (d : List Pt) (hd : d ≠ [])
    (h0 : s.frameIndex ≠ 0) (hpk : s.prevKeypoints = none) :
    rtSampled m step cz s d = .error "Error during processing: IndexError" := by
  have hlen : ¬ (d.length = 0) := by simpa [List.length_eq_zero] using hd
  simp [rtSampled, hlen, h0, hpk]

lemma rtSampled_degen (m : String) (step cz : ℕ) (s : PState) (pk d : List Pt)
    (hpk : s.prevKeypoints = some pk) (hd : d ≠ []) (h0 : s.frameIndex ≠ 0)
    (hdeg : 6 ≤ nanCount8 (angleVec (collectData pk)) ∨
      6 ≤ nanCount8 (angleVec (collectData d))) :
    rtSampled m step cz s d = .ok { s with
      prevKeypoints := some (collectData pk)
      frameIndex := s.frameIndex + 1 } := by
  have hlen : ¬ (d.length = 0) := by simpa [List.length_eq_zero] using hd
  simp [rtSampled, hlen, h0, hpk, hdeg]

lemma rtSampled_process (m : String) (step cz : ℕ) (s : PState) (pk d : List Pt) (raw : NFloat)
    (hpk : s.prevKeypoints = some pk) (hd : d ≠ []) (h0 : s.frameIndex ≠ 0)
    (hdeg : ¬ (6 ≤ nanCount8 (angleVec (collectData pk)) ∨
      6 ≤ nanCount8 (angleVec (collectData d))))
    (hcost : computeCost m (angleVec (collectData pk)) (angleVec (collectData d)) = .ok raw) :
    rtSampled m step cz s d =
      (if step * cz ≤ s.frameIndex then
        .ok { frameIndex := s.frameIndex + 1, prevKeypoints := some (collectData d),
              prevCost := substCost raw s.prevCost,
              cache := (s.cache ++ [substCost raw s.prevCost]).tail,
              costlist := s.costlist ++ [(nfSum (s.cache ++ [substCost raw s.prevCost])).map
                (fun t => t / (((s.cache ++ [substCost raw s.prevCost]).length : ℕ) : ℝ))] }
      else
        .ok { frameIndex := s.frameIndex + 1, prevKeypoints := some (collectData d),
              prevCost := substCost raw s.prevCost,
              cache := s.cache ++ [substCost raw s.prevCost], costlist := s.costlist }) := by
  have hlen : ¬ (d.length = 0) := by simpa [List.length_eq_zero] using hd
  simp [rtSampled, hlen, h0, hpk, hdeg, hcost]

lemma rtFrame_sampled (m : String) (step cz : ℕ) (s : PState) (d : List Pt)
    (h : s.frameIndex % step = 0) : rtFrame m step cz s d = rtSampled m step cz s d := by
  simp [rtFrame, h]

lemma rtFrame_pad (m : String) (step cz : ℕ) (s : PState) (d : List Pt)
    (h : ¬ (s.frameIndex % step = 0)) :
    rtFrame m step cz s d = .ok { s with frameIndex := s.frameIndex + 1 } := by
  simp [rtFrame, h]

lemma rtGo_nil (m : String) (step cz : ℕ) (s : PState) : rtGo m step cz s [] = .ok s := rfl

lemma rtGo_cons_ok (m : String) (step cz : ℕ) (s s1 : PState) (d : List Pt)
    (ds : List (List Pt)) (h : rtFrame m step cz s d = .ok s1) :
    rtGo m step cz s (d :: ds) = rtGo m step cz s1 ds := by
  simp [rtGo, h]

lemma rtGo_cons_err (m : String) (step cz : ℕ) (s : PState) (d : List Pt)
    (ds : List (List Pt)) (e : String) (h : rtFrame m step cz s d = .error e) :
    rtGo m step cz s (d :: ds) = .error e := by
  simp [rtGo, h]

lemma batchSampled_seed (m : String) (s : PState) (d : List Pt) (h0 : s.frameIndex = 0) :
    batchSampled m s d = .ok { s with
      prevKeypoints := some d
      prevCost := some 0
      frameIndex := s.frameIndex + 1 } := by
  simp [batchSampled, h0]

lemma batchSampled_uninit (m : String) (s : PState) (d : List Pt) (h0 : s.frameIndex ≠ 0)
    (hpk : s.prevKeypoints = none) :
    batchSampled m s d = .error "IndexError: collectData applied to integer 0" := by
  simp [batchSampled, h0, hpk]

lemma batchSampled_typeErr (m : String) (s : PState) (pk d : List Pt)
    (hpk : s.prevKeypoints = some pk) (h0 : s.frameIndex ≠ 0)
    (he : collectData pk = [] ∨ collectData d = []) :
    batchSampled m s d = .error "TypeError: list indices must be integers" := by
  simp [batchSampled, h0, hpk, he]

lemma batchSampled_degen (m : String) (s : PState) (pk d : List Pt)
    (hpk : s.prevKeypoints = some pk) (h0 : s.frameIndex ≠ 0)
    (he : ¬ (collectData pk = [] ∨ collectData d = []))
    (hdeg : 6 ≤ nanCount8 (angleVec (collectData pk)) ∨
      6 ≤ nanCount8 (angleVec (collectData d))) :
    batchSampled m s d = .ok { s with prevKeypoints := some (collectData pk) } := by
  simp [batchSampled, h0, hpk, he, hdeg]

lemma batchSampled_process (m : String) (s : PState) (pk d : List Pt) (raw : NFloat)
    (hpk : s.prevKeypoints = some pk) (h0 : s.frameIndex ≠ 0)
    (he : ¬ (collectData pk = [] ∨ collectData d = []))
    (hdeg : ¬ (6 ≤ nanCount8 (angleVec (collectData pk)) ∨
      6 ≤ nanCount8 (angleVec (collectData d))))
    (hcost : computeCost m (angleVec (collectData pk)) (angleVec (collectData d)) = .ok raw) :
    batchSampled m s d =
      (if 5 * 6 ≤ s.frameIndex then
        (if (s.cache ++ [substCost raw s.prevCost]).length = 6 then
          .ok { frameIndex := s.frameIndex + 1, prevKeypoints := some (collectData d),
                prevCost := substCost raw s.prevCost,
                cache := (s.cache ++ [substCost raw s.prevCost]).tail,
                costlist := s.costlist ++
                  [(nfSum (s.cache ++ [substCost raw s.prevCost])).map (fun t => t / 6)] }
        else .error "ValueError: shapes not aligned")
      else
        .ok { frameIndex := s.frameIndex + 1, prevKeypoints := some (collectData d),
              prevCost := substCost raw s.prevCost,
              cache := s.cache ++ [substCost raw s.prevCost], costlist := s.costlist }) := by
  simp [batchSampled, h0, hpk, he, hdeg, hcost]

lemma batchFrame_sampled (m : String) (s : PState) (d : List Pt) (h : s.frameIndex % 5 = 0) :
    batchFrame m s d = batchSampled m s d := by
  simp [batchFrame, h]

lemma batchFrame_pad (m : String) (s : PState) (d : List Pt) (h : ¬ (s.frameIndex % 5 = 0)) :
    batchFrame m s d = .ok { s with frameIndex := s.frameIndex + 1 } := by
  simp [batchFrame, h]

lemma batchGo_nil (m : String) (s : PState) : batchGo m s [] = .ok s := rfl

lemma batchGo_cons_ok (m : String) (s s1 : PState) (d : List Pt) (ds : List (List Pt))
    (h : batchFrame m s d = .ok s1) : batchGo m s (d :: ds) = batchGo m s1 ds := by
  simp [batchGo, h]

lemma batchGo_cons_err (m : String) (s : PState) (d : List Pt) (ds : List (List Pt)) (e : String)
    (h : batchFrame m s d = .error e) : batchGo m s (d :: ds) = .error e := by
  simp [batchGo, h]

/-! ### The defined-cost invariant -/

/-- Every cost value carried by the session state is defined (not NaN). -/
def DefState (s : PState) : Prop :=
  s.prevCost.isSome = true ∧ (∀ c ∈ s.cache, c.isSome = true) ∧
    (∀ c ∈ s.costlist, c.isSome = true)

lemma substCost_isSome (raw prev : NFloat) (h : prev.isSome = true) :
    (substCost raw prev).isSome = true := by
  cases raw with
  | none => simpa [substCost]
  | some x => simp [substCost]

lemma nfSum_cons (a : NFloat) (tl : List NFloat) :
    nfSum (a :: tl) =
      (match a, nfSum tl with | some x, some y => some (x + y) | _, _ => none) := rfl

lemma nfSum_isSome (xs : List NFloat) (h : ∀ c ∈ xs, c.isSome = true) :
    (nfSum xs).isSome = true := by
  induction xs with
  | nil => rfl
  | cons a tl ih =>
      obtain ⟨x, hx⟩ := Option.isSome_iff_exists.mp (h a (List.mem_cons_self a tl))
      obtain ⟨y, hy⟩ :=
        Option.isSome_iff_exists.mp (ih (fun c hc => h c (List.mem_cons_of_mem a hc)))
      rw [nfSum_cons, hx, hy]
      rfl

lemma optionMap_isSome {α β : Type} (f : α → β) (o : Option α) :
    (o.map f).isSome = o.isSome := by cases o <;> rfl

lemma DefState_initState : DefState initState := by
  refine ⟨rfl, ?_, ?_⟩ <;> intro c hc <;> cases hc

lemma cacheAppend_isSome (s : PState) (raw : NFloat) (hs : DefState s) :
    ∀ c ∈ s.cache ++ [substCost raw s.prevCost], c.isSome = true := by
  intro c hc
  rcases List.mem_append.mp hc with hc | hc
  · exact hs.2.1 c hc
  · rw [List.mem_singleton] at hc
    subst hc
    exact substCost_isSome _ _ hs.1

lemma rtSampled_def (m : String) (step cz : ℕ) (s : PState) (d : List Pt) (s1 : PState)
    (hs : DefState s) (h : rtSampled m step cz s d = .ok s1) : DefState s1 := by
  by_cases hd : d = []
  · subst hd
    rw [rtSampled_empty] at h
    cases h
    exact hs
  by_cases h0 : s.frameIndex = 0
  · rw [rtSampled_seed m step cz s d hd h0] at h
    cases h
    exact ⟨rfl, hs.2.1, hs.2.2⟩
  cases hpk : s.prevKeypoints with
  | none => rw [rtSampled_uninit m step cz s d hd h0 hpk] at h; cases h
  | some pk =>
      by_cases hdeg : 6 ≤ nanCount8 (angleVec (collectData pk)) ∨
          6 ≤ nanCount8 (angleVec (collectData d))
      · rw [rtSampled_degen m step cz s pk d hpk hd h0 hdeg] at h
        cases h
        exact hs
      cases hcost : computeCost m (angleVec (collectData pk)) (angleVec (collectData d)) with
      | error e =>
          unfold rtSampled at h
          rw [if_neg (by simpa [List.length_eq_zero] using hd), if_neg h0, hpk] at h
          simp only [if_neg hdeg, hcost] at h
          cases h
      | ok raw =>
          rw [rtSampled_process m step cz s pk d raw hpk hd h0 hdeg hcost] at h
          by_cases hg : step * cz ≤ s.frameIndex
          · rw [if_pos hg] at h
            cases h
            refine ⟨substCost_isSome _ _ hs.1, ?_, ?_⟩
            · intro c hc
              exact cacheAppend_isSome s raw hs c (List.mem_of_mem_tail hc)
            · intro c hc
              rcases List.mem_append.mp hc with hc | hc
              · exact hs.2.2 c hc
              · rw [List.mem_singleton] at hc
                subst hc
                rw [optionMap_isSome]
                exact nfSum_isSome _ (cacheAppend_isSome s raw hs)
          · rw [if_neg hg] at h
            cases h
            exact ⟨substCost_isSome _ _ hs.1, cacheAppend_isSome s raw hs, hs.2.2⟩

lemma batchSampled_def (m : String) (s : PState) (d : List Pt) (s1 : PState)
    (hs : DefState s) (h : batchSampled m s d = .ok s1) : DefState s1 := by
  by_cases h0 : s.frameIndex = 0
  · rw [batchSampled_seed m s d h0] at h
    cases h
    exact ⟨rfl, hs.2.1, hs.2.2⟩
  cases hpk : s.prevKeypoints with
  | none => rw [batchSampled_uninit m s d h0 hpk] at h; cases h
  | some pk =>
      by_cases he : collectData pk = [] ∨ collectData d = []
      · rw [batchSampled_typeErr m s pk d hpk h0 he] at h; cases h
      by_cases hdeg : 6 ≤ nanCount8 (angleVec (collectData pk)) ∨
          6 ≤ nanCount8 (angleVec (collectData d))
      · rw [batchSampled_degen m s pk d hpk h0 he hdeg] at h
        cases h
        exact hs
      cases hcost : computeCost m (angleVec (collectData pk)) (angleVec (collectData d)) with
      | error e =>
          unfold batchSampled at h
          rw [if_neg h0, hpk] at h
          simp only [if_neg he, if_neg hdeg, hcost] at h
          cases h
      | ok raw =>
          rw [batchSampled_process m s pk d raw hpk h0 he hdeg hcost] at h
          by_cases hg : 5 * 6 ≤ s.frameIndex
          · rw [if_pos hg] at h
            by_cases hlen : (s.cache ++ [substCost raw s.prevCost]).length = 6
            · rw [if_pos hlen] at h
              cases h
              refine ⟨substCost_isSome _ _ hs.1, ?_, ?_⟩
              · intro c hc
                exact cacheAppend_isSome s raw hs c (List.mem_of_mem_tail hc)
              · intro c hc
                rcases List.mem_append.mp hc with hc | hc
                · exact hs.2.2 c hc
                · rw [List.mem_singleton] at hc
                  subst hc
                  rw [optionMap_isSome]
                  exact nfSum_isSome _ (cacheAppend_isSome s raw hs)
            · rw [if_neg hlen] at h
              cases h
          · rw [if_neg hg] at h
            cases h
            exact ⟨substCost_isSome _ _ hs.1, cacheAppend_isSome s raw hs, hs.2.2⟩

lemma rtGo_def (m : String) (step cz : ℕ) :
    ∀ ds s s1, DefState s → rtGo m step cz s ds = .ok s1 → DefState s1 := by
  intro ds
  induction ds with
  | nil => intro s s1 hs h; rw [rtGo_nil] at h; cases h; exact hs
  | cons d ds ih =>
      intro s s1 hs h
      cases hf : rtFrame m step cz s d with
      | error e => rw [rtGo_cons_err m step cz s d ds e hf] at h; cases h
      | ok s2 =>
          rw [rtGo_cons_ok m step cz s s2 d ds hf] at h
          refine ih s2 s1 ?_ h
          by_cases hsamp : s.frameIndex % step = 0
          · rw [rtFrame_sampled m step cz s d hsamp] at hf
            exact rtSampled_def m step cz s d s2 hs hf
          · rw [rtFrame_pad m step cz s d hsamp] at hf
            cases hf
            exact hs

lemma batchGo_def (m : String) :
    ∀ ds s s1, DefState s → batchGo m s ds = .ok s1 → DefState s1 := by
  intro ds
  induction ds with
  | nil => intro s s1 hs h; rw [batchGo_nil] at h; cases h; exact hs
  | cons d ds ih =>
      intro s s1 hs h
      cases hf : batchFrame m s d with
      | error e => rw [batchGo_cons_err m s d ds e hf] at h; cases h
      | ok s2 =>
          rw [batchGo_cons_ok m s s2 d ds hf] at h
          refine ih s2 s1 ?_ h
          by_cases hsamp : s.frameIndex % 5 = 0
          · rw [batchFrame_sampled m s d hsamp] at hf
            exact batchSampled_def m s d s2 hs hf
          · rw [batchFrame_pad m s d hsamp] at hf
            cases hf
            exact hs

/-! ### Real-time runs with a valid method never fail after a successful seed -/

lemma computeCost_diffSum (v1 v2 : AngleVec) :
    computeCost "DifferenceSum" v1 v2 = .ok (differenceSum v1 v2) := by
  simp [computeCost]

lemma rtSampled_ok_of (m : String) (step cz : ℕ)
    (hm : ∀ v1 v2, ∃ r, computeCost m v1 v2 = .ok r) (s : PState) (d : List Pt)
    (hprev : s.prevKeypoints.isSome = true) :
    ∃ s1, rtSampled m step cz s d = .ok s1 ∧ s1.prevKeypoints.isSome = true := by
  by_cases hd : d = []
  · subst hd
    exact ⟨_, rtSampled_empty m step cz s, hprev⟩
  by_cases h0 : s.frameIndex = 0
  · exact ⟨_, rtSampled_seed m step cz s d hd h0, rfl⟩
  obtain ⟨pk, hpk⟩ := Option.isSome_iff_exists.mp hprev
  by_cases hdeg : 6 ≤ nanCount8 (angleVec (collectData pk)) ∨
      6 ≤ nanCount8 (angleVec (collectData d))
  · exact ⟨_, rtSampled_degen m step cz s pk d hpk hd h0 hdeg, rfl⟩
  obtain ⟨r, hr⟩ := hm (angleVec (collectData pk)) (angleVec (collectData d))
  rw [rtSampled_process m step cz s pk d r hpk hd h0 hdeg hr]
  by_cases hg : step * cz ≤ s.frameIndex
  · rw [if_pos hg]
    exact ⟨_, rfl, rfl⟩
  · rw [if_neg hg]
    exact ⟨_, rfl, rfl⟩

lemma rtGo_ok (m : String) (step cz : ℕ)
    (hm : ∀ v1 v2, ∃ r, computeCost m v1 v2 = .ok r) :
    ∀ ds s, s.prevKeypoints.isSome = true →
      ∃ s1, rtGo m step cz s ds = .ok s1 ∧ s1.prevKeypoints.isSome = true := by
  intro ds
  induction ds with
  | nil => intro s h; exact ⟨s, rfl, h⟩
  | cons d ds ih =>
      intro s h
      by_cases hsamp : s.frameIndex % step = 0
      · obtain ⟨s2, h2, hp2⟩ := rtSampled_ok_of m step cz hm s d h
        obtain ⟨s1, h1, hp1⟩ := ih s2 hp2
        refine ⟨s1, ?_, hp1⟩
        rw [rtGo_cons_ok m step cz s s2 d ds (by rw [rtFrame_sampled m step cz s d hsamp]; exact h2)]
        exact h1
      · obtain ⟨s1, h1, hp1⟩ := ih { s with frameIndex := s.frameIndex + 1 } h
        refine ⟨s1, ?_, hp1⟩
        rw [rtGo_cons_ok m step cz s _ d ds (rtFrame_pad m step cz s d hsamp)]
        exact h1

/-! ### Claim theorems -/

/-- C8: Classification uses strict greater-than against the per-method
threshold (DifferenceMean=58, DifferenceSum=55, MeanDifference=5, Mean=37,
Division=8.5): for the DifferenceMean method a latest smoothed cost of 59
classifies as fall, 57 as no fall, and exactly 58 as no fall. -/
theorem C8_threshold_classification :
    chooseThreshold "DifferenceMean" 10 = 58 ∧ chooseThreshold "DifferenceSum" 10 = 55 ∧
    chooseThreshold "MeanDifference" 10 = 5 ∧ chooseThreshold "Mean" 10 = 37 ∧
    chooseThreshold "Division" 10 = 17 / 2 ∧
    (∀ c t : ℚ, fallStatus c t = true ↔ t < c) ∧
    fallStatus 59 58 = true ∧ fallStatus 57 58 = false ∧ fallStatus 58 58 = false := by
  refine ⟨rfl, rfl, rfl, rfl, rfl, ?_, by decide, by decide, by decide⟩
  intro c t
  simp [fallStatus]

/-- C6: Feeding the raw cost sequence [1,2,3,4,5,6,7] into the batch smoother
(window capacity 6) emits its first smoothed value 3.5 = average(1..6) after
the 6th sample and its second smoothed value 4.5 = average(2..7) after the
7th sample, and no other values (nothing is emitted for 5 or fewer samples). -/
theorem C6_sliding_window_case :
    batchSmooth [1, 2, 3, 4, 5, 6, 7] = [7 / 2, 9 / 2] ∧
    batchSmooth [1, 2, 3, 4, 5, 6] = [7 / 2] ∧
    batchSmooth [1, 2, 3, 4, 5] = [] := by
  refine ⟨?_, ?_, ?_⟩ <;> norm_num [batchSmooth, bSmoothGo]

/-- C7 counterexample: a file-backed (non-webcam) source reporting 4.6 fps is
*accepted* by the real-time setup (the check applies to the rounded rate,
round(4.6) = 5), with step size 1 — the claim says real-time mode rejects
file-backed sources reporting a rate below 5. -/
theorem C7_counterexample : rtSetup (23 / 5) false = .ok (1, 5) := by
  norm_num [rtSetup, pythonRound] <;> decide

/-- C7 as amended: a 25 fps source is fatal in batch mode before any frame is
read (the error is independent of the stream) and accepted in real-time mode
with step size 4 = max(1, floor(25/6)); but real-time mode applies its
checks to the *rounded* reported rate: it rejects a file-backed source iff
round(rate) < 5, substitutes 30 (hence step 5) for a live source with
round(rate) < 1, and otherwise uses step = max(1, round(rate) // 6). -/
theorem C7_amended :
    (∀ (fps : ℚ) (m : String) (ds : List (List Pt)), fps ≠ 30 →
      batchRun fps m ds = .error "Video is not in 30 FPS!") ∧
    (rtSetup 25 false = .ok (4, 25) ∧ (4 : ℤ) = max 1 ⌊(25 : ℚ) / 6⌋) ∧
    (∀ q : ℚ, pythonRound q < 5 →
      rtSetup q false = .error "Error: Video FPS too low (less than 5)") ∧
    (∀ q : ℚ, ¬ pythonRound q < 5 →
      rtSetup q false = .ok (max 1 ((pythonRound q).fdiv 6), pythonRound q)) ∧
    (∀ q : ℚ, pythonRound q < 1 → rtSetup q true = .ok (5, 30)) ∧
    (∀ q : ℚ, ¬ pythonRound q < 1 →
      rtSetup q true = .ok (max 1 ((pythonRound q).fdiv 6), pythonRound q)) := by
  refine ⟨?_, ⟨by norm_num [rtSetup, pythonRound] <;> decide, by norm_num⟩, ?_, ?_, ?_, ?_⟩
  · intro fps m ds h
    simp [batchRun, h]
  · intro q h
    simp [rtSetup, h]
  · intro q h
    simp [rtSetup, h]
  · intro q h
    simp [rtSetup, h]
  · intro q h
    simp [rtSetup, h]

/-- C7 witness: the amended statement evaluated at concrete rates — batch at
25 fps, real-time file at 25 fps (accepted, step 4), real-time file at 3 fps
(rejected), real-time webcam at 0.5 fps (default 30 substituted, step 5). -/
theorem C7_witness :
    batchRun 25 "Mean" [] = .error "Video is not in 30 FPS!" ∧
    rtSetup 25 false = .ok (4, 25) ∧
    rtSetup 3 false = .error "Error: Video FPS too low (less than 5)" ∧
    rtSetup (1 / 2) true = .ok (5, 30) := by
  refine ⟨C7_amended.1 25 "Mean" [] (by norm_num), C7_amended.2.1.1,
    C7_amended.2.2.1 3 (by norm_num [pythonRound]),
    C7_amended.2.2.2.2.1 (1 / 2) (by norm_num [pythonRound])⟩

/-- A non-degenerate angle vector with one NaN entry: seven angles of 90
degrees, entry 7 undefined. -/
noncomputable def vStar : AngleVec := fun i => if i = 7 then none else some 90

/-- An everywhere-defined angle vector, all angles 90 degrees. -/
noncomputable def vAll : AngleVec := fun _ => some 90

lemma nansumL_ofFn_ite7 (x : ℝ) :
    nansumL (List.ofFn (fun i : Fin 8 => if i = 7 then none else some x)) = 7 * x := by
  show x + (x + (x + (x + (x + (x + (x + 0)))))) = 7 * x
  ring

/-- C5 counterexample: the angle vector with seven 90-degree entries and one
NaN entry is non-degenerate (1 NaN of 8), yet the Division cost of the vector
against itself is 7·(90/(90+1e-6)), which is more than 1/2 away from the
claimed value 8 — `np.nansum` only counts the defined entries. -/
theorem C5_counterexample :
    nanCount8 vStar ≤ 5 ∧
    divisionCost vStar vStar = some (7 * (90 / (90 + 1 / 1000000))) ∧
    1 / 2 < |(7 : ℝ) * (90 / (90 + 1 / 1000000)) - 8| := by
  refine ⟨?_, ?_, ?_⟩
  · have h : nanCount8 vStar = 1 := by decide
    rw [h]
    norm_num
  · unfold divisionCost
    congr 1
    have hfun : (fun i : Fin 8 => match zeroRemap (vStar i), vStar i with
        | some a, some b => some (b / (a + 1 / 1000000))
        | _, _ => none) =
        (fun i : Fin 8 => if i = 7 then none else some ((90 : ℝ) / (90 + 1 / 1000000))) := by
      funext i
      by_cases hi : i = 7
      · simp [vStar, hi]
      · have hv : vStar i = some 90 := by simp [vStar, hi]
        rw [hv]
        have hz : zeroRemap (some (90 : ℝ)) = some 90 := by norm_num [zeroRemap]
        rw [hz]
        simp [hi]
    rw [hfun, nansumL_ofFn_ite7]
  · rw [abs_of_nonpos (by norm_num)]
    norm_num

/-- C5 as amended: for every non-degenerate angle vector v (at most 5 of 8
entries undefined), self-comparison gives DifferenceMean = 0,
DifferenceSum = 0 and MeanDifference = 0 exactly; the Division cost of v
against itself sums 90→b/(a+1e-6) only over the defined nonzero entries, so
it equals 8 within 8e-6 when all 8 entries are defined and at least 1. -/
theorem C5_amended (v : AngleVec) (hnd : nanCount8 v ≤ 5) :
    (differenceMean v v = some 0 ∧ differenceSum v v = some 0 ∧
      meanDifference v v = some 0) ∧
    (∀ x : Fin 8 → ℝ, (∀ i, v i = some (x i)) → (∀ i, 1 ≤ x i) →
      ∃ d, divisionCost v v = some d ∧ |d - 8| ≤ 8 / 1000000) := by
  have hex := exists_isSome_of_nanCount8_le v hnd
  refine ⟨⟨differenceMean_self v hex, differenceSum_self v, meanDifference_self v hex⟩, ?_⟩
  intro x hv hx
  have hfun : (fun i : Fin 8 => match zeroRemap (v i), v i with
      | some a, some b => some (b / (a + 1 / 1000000))
      | _, _ => none) =
      (fun i : Fin 8 => some (x i / (x i + 1 / 1000000))) := by
    funext i
    rw [hv i]
    have hxne : x i ≠ 0 := by
      have := hx i
      intro h0
      rw [h0] at this
      linarith
    simp [zeroRemap, hxne]
  refine ⟨∑ i : Fin 8, x i / (x i + 1 / 1000000), ?_, ?_⟩
  · unfold divisionCost
    rw [hfun]
    congr 1
  · have hterm : ∀ i : Fin 8, 0 ≤ 1 - x i / (x i + 1 / 1000000) ∧
        1 - x i / (x i + 1 / 1000000) ≤ 1 / 1000000 := by
      intro i
      have hx1 := hx i
      have h1 : (0 : ℝ) < x i + 1 / 1000000 := by linarith
      constructor
      · have hle : x i / (x i + 1 / 1000000) ≤ 1 := by
          rw [div_le_one h1]
          linarith
        linarith
      · have heq : 1 - x i / (x i + 1 / 1000000) = (1 / 1000000) / (x i + 1 / 1000000) := by
          field_simp
        rw [heq, div_le_iff₀ h1]
        nlinarith
    rw [abs_le]
    constructor
    · have hlow : ∑ i : Fin 8, ((1 : ℝ) - 1 / 1000000) ≤
          ∑ i : Fin 8, x i / (x i + 1 / 1000000) := by
        apply Finset.sum_le_sum
        intro i _
        have := hterm i
        linarith [(hterm i).2]
      have hconst : ∑ _i : Fin 8, ((1 : ℝ) - 1 / 1000000) = 8 * (1 - 1 / 1000000) := by
        rw [Finset.sum_const]
        simp
      rw [hconst] at hlow
      linarith
    · have hhigh : ∑ i : Fin 8, x i / (x i + 1 / 1000000) ≤ ∑ _i : Fin 8, (1 : ℝ) := by
        apply Finset.sum_le_sum
        intro i _
        linarith [(hterm i).1]
      have hconst : ∑ _i : Fin 8, (1 : ℝ) = 8 := by simp
      rw [hconst] at hhigh
      linarith

/-- C5 witness: the amended statement at the all-90-degrees vector — the
three difference costs are exactly 0 and the Division cost is within 8e-6
of 8. -/
theorem C5_witness :
    (differenceMean vAll vAll = some 0 ∧ differenceSum vAll vAll = some 0 ∧
      meanDifference vAll vAll = some 0) ∧
    ∃ d, divisionCost vAll vAll = some d ∧ |d - 8| ≤ 8 / 1000000 := by
  have h := C5_amended vAll (by rw [nanCount8_eq_zero vAll (fun i => rfl)]; norm_num)
  exact ⟨h.1, h.2 (fun _ => 90) (fun i => rfl) (fun i => by norm_num)⟩

/-- C9: For every keypoint set and every angle pair (with default unit
weights), the computed angle is either a value in [0°, 180°] or undefined,
and it is undefined exactly when one of the pair's two difference vectors
has an undefined norm (a NaN coordinate) or a zero norm. -/
theorem C9_angle_range (l : List Pt) (i : Fin 8) :
    (angleVec l i = none ↔ (vecNorm (pairVecs l i).1 = none ∨ vecNorm (pairVecs l i).2 = none ∨
      vecNorm (pairVecs l i).1 = some 0 ∨ vecNorm (pairVecs l i).2 = some 0)) ∧
    (∀ x : ℝ, angleVec l i = some x → 0 ≤ x ∧ x ≤ 180) := by
  constructor
  · rw [show angleVec l i = (anglePair (pairVecs l i).1 (pairVecs l i).2).map
        (fun a => a * angleWeights i) from rfl, Option.map_eq_none']
    exact anglePair_none_iff _ _
  · intro x hx
    rw [show angleVec l i = (anglePair (pairVecs l i).1 (pairVecs l i).2).map
        (fun a => a * angleWeights i) from rfl, Option.map_eq_some'] at hx
    obtain ⟨a, ha, hax⟩ := hx
    have hb := anglePair_bounds _ _ a ha
    have hxa : x = a := by
      rw [← hax]
      simp [angleWeights]
    rw [hxa]
    exact hb

lemma angleVec_aug17_zero : angleVec (K17 ++ extrasOf K17) 0 = some 0 := by
  have step1 : angleVec (K17 ++ extrasOf K17) 0 =
      (anglePair (some ((6 : ℝ) - 8), some ((0 : ℝ) - 0))
        (some ((6 : ℝ) - 12), some ((0 : ℝ) - 0))).map (fun a => a * 1) := rfl
  rw [step1]
  have ha : ((6 : ℝ) - 8) ^ 2 + ((0 : ℝ) - 0) ^ 2 = 2 ^ 2 := by norm_num
  have hb : ((6 : ℝ) - 12) ^ 2 + ((0 : ℝ) - 0) ^ 2 = 6 ^ 2 := by norm_num
  have hz : Real.sqrt (((6 : ℝ) - 8) ^ 2 + ((0 : ℝ) - 0) ^ 2) *
      Real.sqrt (((6 : ℝ) - 12) ^ 2 + ((0 : ℝ) - 0) ^ 2) ≠ 0 := by
    rw [ha, hb, Real.sqrt_sq (by norm_num : (0 : ℝ) ≤ 2),
      Real.sqrt_sq (by norm_num : (0 : ℝ) ≤ 6)]
    norm_num
  rw [anglePair_value _ _ _ _ hz, ha, hb, Real.sqrt_sq (by norm_num : (0 : ℝ) ≤ 2),
    Real.sqrt_sq (by norm_num : (0 : ℝ) ≤ 6)]
  have harg : (((6 : ℝ) - 8) * ((6 : ℝ) - 12) + ((0 : ℝ) - 0) * ((0 : ℝ) - 0)) / (2 * 6) = 1 := by
    norm_num
  rw [harg, Real.arccos_one]
  simp

/-- C9 witness: the theorem evaluated at the augmented generic keypoint set
and angle pair 0, whose angle computes to 0° (parallel vectors). -/
theorem C9_witness :
    ((angleVec (K17 ++ extrasOf K17) 0 = none ↔
      (vecNorm (pairVecs (K17 ++ extrasOf K17) 0).1 = none ∨
        vecNorm (pairVecs (K17 ++ extrasOf K17) 0).2 = none ∨
        vecNorm (pairVecs (K17 ++ extrasOf K17) 0).1 = some 0 ∨
        vecNorm (pairVecs (K17 ++ extrasOf K17) 0).2 = some 0)) ∧
    (0 ≤ (0 : ℝ) ∧ (0 : ℝ) ≤ 180)) :=
  ⟨(C9_angle_range (K17 ++ extrasOf K17) 0).1,
    (C9_angle_range (K17 ++ extrasOf K17) 0).2 0 angleVec_aug17_zero⟩

/-- C10: For every non-empty once-augmented keypoint set (at least 22 points,
none with a negative coordinate), applying collectData again leaves the
original points unchanged and only appends five further derived points beyond
index 21; since the vector and angle-pair tables reference only indices 0-21,
the angle vector after re-augmentation equals the angle vector before it. -/
theorem C10_reaugmentation (l : List Pt) (hne : l ≠ []) (hlen : 22 ≤ l.length)
    (hnn : ∀ p ∈ l, ptNoNeg p) :
    collectData l = l ++ extrasOf l ∧ (extrasOf l).length = 5 ∧
    (collectData l).take l.length = l ∧ (collectData l).length = l.length + 5 ∧
    angleVec (collectData l) = angleVec l := by
  have hcd := collectData_eq_of l hne hnn
  refine ⟨hcd, rfl, ?_, collectData_length l hne, angleVec_collectData l hne hnn hlen⟩
  rw [hcd]
  exact List.take_left l (extrasOf l)

/-- C10 witness: the theorem evaluated at the augmented generic keypoint set
(22 points, no negative coordinates). -/
theorem C10_witness :
    collectData (K17 ++ extrasOf K17) =
      (K17 ++ extrasOf K17) ++ extrasOf (K17 ++ extrasOf K17) ∧
    (extrasOf (K17 ++ extrasOf K17)).length = 5 ∧
    (collectData (K17 ++ extrasOf K17)).take (K17 ++ extrasOf K17).length =
      K17 ++ extrasOf K17 ∧
    (collectData (K17 ++ extrasOf K17)).length = (K17 ++ extrasOf K17).length + 5 ∧
    angleVec (collectData (K17 ++ extrasOf K17)) = angleVec (K17 ++ extrasOf K17) :=
  C10_reaugmentation (K17 ++ extrasOf K17)
    (by
      intro h
      have h2 := congrArg List.length h
      rw [show (K17 ++ extrasOf K17).length = 22 from rfl] at h2
      cases h2)
    (by norm_num [show (K17 ++ extrasOf K17).length = 22 from rfl])
    (collectData_K17 ▸ collectData_noNeg K17)

/-- C4: If the computed raw cost is undefined it is replaced by the session
previous cost before being appended (previous cost is seeded with 0);
consequently, in either operating mode, the previous cost, cache window and
emitted smoothed-cost sequence of any state reachable by a run (every prefix
of a stream is itself a run) contain no undefined value. -/
theorem C4_no_undefined_costs :
    (∀ prev : NFloat, substCost none prev = prev) ∧
    (∀ (x : ℝ) (prev : NFloat), substCost (some x) prev = some x) ∧
    (∀ (fps : ℚ) (m : String) (ds : List (List Pt)) (s1 : PState),
      batchRun fps m ds = .ok s1 →
      s1.prevCost.isSome = true ∧ (∀ c ∈ s1.cache, c.isSome = true) ∧
        (∀ c ∈ s1.costlist, c.isSome = true)) ∧
    (∀ (q : ℚ) (w : Bool) (m : String) (ds : List (List Pt)) (s1 : PState),
      rtRun q w m ds = .ok s1 →
      s1.prevCost.isSome = true ∧ (∀ c ∈ s1.cache, c.isSome = true) ∧
        (∀ c ∈ s1.costlist, c.isSome = true)) := by
  refine ⟨fun prev => rfl, fun x prev => rfl, ?_, ?_⟩
  · intro fps m ds s1 h
    unfold batchRun at h
    split at h
    · exact batchGo_def m ds initState s1 DefState_initState h
    · cases h
  · intro q w m ds s1 h
    unfold rtRun at h
    cases hs : rtSetup q w with
    | error e => rw [hs] at h; cases h
    | ok sf =>
        rw [hs] at h
        exact rtGo_def m sf.1.toNat (min 6 ((sf.1 * 6).fdiv (max 1 sf.2))).toNat ds
          initState s1 DefState_initState h

/-- C4 witness: the run-level conjuncts evaluated on concrete (empty) runs in
both modes, and both substitution equations at concrete values. -/
theorem C4_witness :
    substCost none (some 0) = some 0 ∧ substCost (some 1) none = some 1 ∧
    (initState.prevCost.isSome = true ∧ (∀ c ∈ initState.cache, c.isSome = true) ∧
      (∀ c ∈ initState.costlist, c.isSome = true)) := by
  have hb : batchRun 30 "Mean" [] = .ok initState := by
    norm_num [batchRun, batchGo]
  refine ⟨C4_no_undefined_costs.1 (some 0), C4_no_undefined_costs.2.1 1 none,
    C4_no_undefined_costs.2.2.1 30 "Mean" [] initState hb⟩

lemma aug17_ne_nil : K17 ++ extrasOf K17 ≠ [] := by
  intro h
  have h2 := congrArg List.length h
  rw [show (K17 ++ extrasOf K17).length = 22 from rfl] at h2
  cases h2

lemma Kdeg_degenerate : 6 ≤ nanCount8 (angleVec (collectData Kdeg)) := by
  rw [collectData_Kdeg, nanCount8_eq_eight _ Kdeg_angles_none]
  norm_num

/-- A running-state with a 22-point augmented previous keypoint set, frame
index 5, empty cache and empty cost history. -/
noncomputable def sPrev : PState := ⟨5, some (K17 ++ extrasOf K17), some 0, [], []⟩

/-- C3 counterexample: feeding a degenerate current frame to the batch
sampled-frame handler from a state with frame index 5 and a 22-point stored
previous set leaves the frame index at 5 (the claim demands 6) and replaces
the stored previous keypoints by their re-augmented 27-point version (the
claim demands them unchanged). -/
theorem C3_counterexample :
    (batchSampled "DifferenceMean" sPrev Kdeg).map
      (fun s => (s.frameIndex, (s.prevKeypoints.getD []).length)) = Except.ok (5, 27) := by
  rw [batchSampled_degen "DifferenceMean" sPrev (K17 ++ extrasOf K17) Kdeg rfl
    (by simp [sPrev])
    (by
      rw [not_or]
      exact ⟨collectData_ne_nil _ aug17_ne_nil, collectData_ne_nil _ Kdeg_ne_nil⟩)
    (Or.inr Kdeg_degenerate)]
  have hlen : (collectData (K17 ++ extrasOf K17)).length = 27 := by
    rw [collectData_length _ aug17_ne_nil, show (K17 ++ extrasOf K17).length = 22 from rfl]
  simp [sPrev, Except.map, hlen]

/-- C3 as amended: a degenerate frame pair (at least 6 of 8 undefined entries
in either angle vector) leaves previous cost, cache window and cost history
unchanged, but the stored previous keypoints are replaced by their
re-augmented form collectData(prev) (which leaves the 22 table-referenced
points, hence the next angle computation, unchanged); the frame counter
advances by one in real-time mode and does not advance in batch mode. -/
theorem C3_amended (m : String) (step cz : ℕ) (s : PState) (pk d : List Pt)
    (hpk : s.prevKeypoints = some pk) (h0 : s.frameIndex ≠ 0) (hd : d ≠ [])
    (he : ¬ (collectData pk = [] ∨ collectData d = []))
    (hdeg : 6 ≤ nanCount8 (angleVec (collectData pk)) ∨
      6 ≤ nanCount8 (angleVec (collectData d))) :
    batchSampled m s d = .ok { s with prevKeypoints := some (collectData pk) } ∧
    rtSampled m step cz s d = .ok { s with
      prevKeypoints := some (collectData pk)
      frameIndex := s.frameIndex + 1 } :=
  ⟨batchSampled_degen m s pk d hpk h0 he hdeg,
    rtSampled_degen m step cz s pk d hpk hd h0 hdeg⟩

/-- C3 witness: the amended statement evaluated at the concrete state
`sPrev` and the degenerate current frame. -/
theorem C3_witness :
    batchSampled "DifferenceMean" sPrev Kdeg =
      .ok { sPrev with prevKeypoints := some (collectData (K17 ++ extrasOf K17)) } ∧
    rtSampled "DifferenceMean" 5 1 sPrev Kdeg = .ok { sPrev with
      prevKeypoints := some (collectData (K17 ++ extrasOf K17))
      frameIndex := sPrev.frameIndex + 1 } :=
  C3_amended "DifferenceMean" 5 1 sPrev (K17 ++ extrasOf K17) Kdeg rfl (by simp [sPrev])
    Kdeg_ne_nil
    (by
      rw [not_or]
      exact ⟨collectData_ne_nil _ aug17_ne_nil, collectData_ne_nil _ Kdeg_ne_nil⟩)
    (Or.inr Kdeg_degenerate)

/-- C2 counterexample: in batch mode an empty detection is not skipped — the
six-frame stream whose second sampled frame (frame 5) has an empty detection
aborts with a TypeError (the empty Python list reaches
`current_keypoints[self.vector_indices]`), instead of completing with the
state unchanged. -/
theorem C2_counterexample :
    batchRun 30 "DifferenceSum" [K17, [], [], [], [], []] =
      .error "TypeError: list indices must be integers" := by
  have h30 : batchRun 30 "DifferenceSum" [K17, [], [], [], [], []] =
      batchGo "DifferenceSum" initState [K17, [], [], [], [], []] := by
    norm_num [batchRun]
  rw [h30]
  have h0 : batchFrame "DifferenceSum" initState K17 =
      .ok ⟨1, some K17, some 0, [], []⟩ := by
    rw [batchFrame_sampled "DifferenceSum" initState K17 rfl,
      batchSampled_seed "DifferenceSum" initState K17 rfl]
    rfl
  have h1 : batchFrame "DifferenceSum" (⟨1, some K17, some 0, [], []⟩ : PState) [] =
      .ok ⟨2, some K17, some 0, [], []⟩ := by
    rw [batchFrame_pad _ _ _ (by decide)]
  have h2 : batchFrame "DifferenceSum" (⟨2, some K17, some 0, [], []⟩ : PState) [] =
      .ok ⟨3, some K17, some 0, [], []⟩ := by
    rw [batchFrame_pad _ _ _ (by decide)]
  have h3 : batchFrame "DifferenceSum" (⟨3, some K17, some 0, [], []⟩ : PState) [] =
      .ok ⟨4, some K17, some 0, [], []⟩ := by
    rw [batchFrame_pad _ _ _ (by decide)]
  have h4 : batchFrame "DifferenceSum" (⟨4, some K17, some 0, [], []⟩ : PState) [] =
      .ok ⟨5, some K17, some 0, [], []⟩ := by
    rw [batchFrame_pad _ _ _ (by decide)]
  have h5 : batchFrame "DifferenceSum" (⟨5, some K17, some 0, [], []⟩ : PState) [] =
      .error "TypeError: list indices must be integers" := by
    rw [batchFrame_sampled _ _ _ (by decide),
      batchSampled_typeErr _ _ K17 [] rfl (by decide) (Or.inr rfl)]
  rw [batchGo_cons_ok _ _ _ _ _ h0, batchGo_cons_ok _ _ _ _ _ h1,
    batchGo_cons_ok _ _ _ _ _ h2, batchGo_cons_ok _ _ _ _ _ h3,
    batchGo_cons_ok _ _ _ _ _ h4, batchGo_cons_err _ _ _ _ _ h5]

/-- C2 as amended: in real-time mode an empty detection on a sampled frame is
skipped by advancing the frame counter only, with previous keypoints,
previous cost, cache window and cost history untouched, and any real-time
stream whose first frame yields a non-empty detection completes without
error and without an undefined value in its cache or cost history (in
particular one whose every third sampled frame yields empty detection); in
batch mode an empty detection is not skipped: the sampled-frame handler
aborts with a TypeError. -/
theorem C2_amended :
    (∀ (m : String) (step cz : ℕ) (s : PState),
      rtSampled m step cz s [] = .ok { s with frameIndex := s.frameIndex + 1 }) ∧
    (∀ (m : String) (s : PState) (pk : List Pt), s.prevKeypoints = some pk →
      s.frameIndex ≠ 0 →
      batchSampled m s [] = .error "TypeError: list indices must be integers") ∧
    (∀ (d : List Pt) (ds : List (List Pt)), d ≠ [] →
      ∃ s1, rtRun 30 false "DifferenceSum" (d :: ds) = .ok s1 ∧
        (∀ c ∈ s1.cache, c.isSome = true) ∧ (∀ c ∈ s1.costlist, c.isSome = true)) := by
  refine ⟨rtSampled_empty, ?_, ?_⟩
  · intro m s pk hpk h0
    exact batchSampled_typeErr m s pk [] hpk h0 (Or.inr rfl)
  · intro d ds hd
    have hsetup : rtSetup 30 false = .ok (5, 30) := by
      norm_num [rtSetup, pythonRound]
      decide
    have hseed : DefState { initState with
        prevKeypoints := some d
        prevCost := some 0
        frameIndex := initState.frameIndex + 1 } := by
      refine ⟨rfl, ?_, ?_⟩ <;> intro c hc <;> cases hc
    obtain ⟨s1, h1, hp1⟩ := rtGo_ok "DifferenceSum" 5 1
      (fun v1 v2 => ⟨differenceSum v1 v2, computeCost_diffSum v1 v2⟩) ds
      { initState with
        prevKeypoints := some d
        prevCost := some 0
        frameIndex := initState.frameIndex + 1 } rfl
    have hdef : DefState s1 := rtGo_def "DifferenceSum" 5 1 ds _ s1 hseed h1
    refine ⟨s1, ?_, hdef.2.1, hdef.2.2⟩
    unfold rtRun
    rw [hsetup]
    show rtGo "DifferenceSum" 5 1 initState (d :: ds) = .ok s1
    rw [rtGo_cons_ok "DifferenceSum" 5 1 initState _ d ds
      (by
        rw [rtFrame_sampled _ _ _ _ _ rfl]
        exact rtSampled_seed "DifferenceSum" 5 1 initState d hd rfl)]
    exact h1

/-- C2 witness: the amended statement evaluated concretely — a real-time
empty-detection skip from `sPrev`, the batch TypeError from `sPrev`, and a
completed one-frame real-time run. -/
theorem C2_witness :
    rtSampled "Mean" 5 1 sPrev [] = .ok { sPrev with frameIndex := sPrev.frameIndex + 1 } ∧
    batchSampled "Mean" sPrev [] = .error "TypeError: list indices must be integers" ∧
    (∃ s1, rtRun 30 false "DifferenceSum" [K17] = .ok s1 ∧
      (∀ c ∈ s1.cache, c.isSome = true) ∧ (∀ c ∈ s1.costlist, c.isSome = true)) :=
  ⟨C2_amended.1 "Mean" 5 1 sPrev,
    C2_amended.2.1 "Mean" sPrev (K17 ++ extrasOf K17) rfl (by simp [sPrev]),
    C2_amended.2.2 K17 [] K17_ne_nil⟩

lemma K17_nodeg : nanCount8 (angleVec (collectData K17)) = 0 := by
  rw [collectData_K17]
  exact nanCount8_eq_zero _ K17_angles_defined

/-- C1 counterexample: a six-frame 30 fps real-time run (two sampled frames:
the seeding frame and one processed pair) already emits one smoothed value,
although only 2 < 6 sampled frames have been processed — in real-time mode
`cache_size = min(6, step*6 // fps) = 1`, so emission starts at the first
sampled cost. -/
theorem C1_counterexample :
    (rtRun 30 false "DifferenceSum" [K17, [], [], [], [], K17]).map
      (fun s => s.costlist.length) = Except.ok 1 := by
  have hsetup : rtSetup 30 false = .ok (5, 30) := by
    norm_num [rtSetup, pythonRound]
    decide
  unfold rtRun
  rw [hsetup]
  show (rtGo "DifferenceSum" 5 1 initState [K17, [], [], [], [], K17]).map
      (fun s => s.costlist.length) = Except.ok 1
  have h0 : rtFrame "DifferenceSum" 5 1 initState K17 =
      .ok ⟨1, some K17, some 0, [], []⟩ := by
    rw [rtFrame_sampled _ _ _ _ _ rfl,
      rtSampled_seed "DifferenceSum" 5 1 initState K17 K17_ne_nil rfl]
    rfl
  have h1 : rtFrame "DifferenceSum" 5 1 (⟨1, some K17, some 0, [], []⟩ : PState) [] =
      .ok ⟨2, some K17, some 0, [], []⟩ := by
    rw [rtFrame_pad _ _ _ _ _ (by decide)]
  have h2 : rtFrame "DifferenceSum" 5 1 (⟨2, some K17, some 0, [], []⟩ : PState) [] =
      .ok ⟨3, some K17, some 0, [], []⟩ := by
    rw [rtFrame_pad _ _ _ _ _ (by decide)]
  have h3 : rtFrame "DifferenceSum" 5 1 (⟨3, some K17, some 0, [], []⟩ : PState) [] =
      .ok ⟨4, some K17, some 0, [], []⟩ := by
    rw [rtFrame_pad _ _ _ _ _ (by decide)]
  have h4 : rtFrame "DifferenceSum" 5 1 (⟨4, some K17, some 0, [], []⟩ : PState) [] =
      .ok ⟨5, some K17, some 0, [], []⟩ := by
    rw [rtFrame_pad _ _ _ _ _ (by decide)]
  have h5 : rtFrame "DifferenceSum" 5 1 (⟨5, some K17, some 0, [], []⟩ : PState) K17 =
      .ok ⟨6, some (collectData K17), substCost (some 0) (some 0),
        ([] ++ [substCost (some 0) (some 0)]).tail,
        [] ++ [(nfSum ([] ++ [substCost (some 0) (some 0)])).map
          (fun t => t / ((([] ++ [substCost (some 0) (some 0)]).length : ℕ) : ℝ))]⟩ := by
    rw [rtFrame_sampled _ _ _ _ _ (by decide),
      rtSampled_process "DifferenceSum" 5 1 _ K17 K17 (some 0) rfl K17_ne_nil (by decide)
        (by simp [K17_nodeg])
        (by rw [computeCost_diffSum, differenceSum_self])]
    rw [if_pos (by decide : 5 * 1 ≤ (⟨5, some K17, some 0, [], []⟩ : PState).frameIndex)]
  rw [rtGo_cons_ok _ _ _ _ _ _ _ h0, rtGo_cons_ok _ _ _ _ _ _ _ h1,
    rtGo_cons_ok _ _ _ _ _ _ _ h2, rtGo_cons_ok _ _ _ _ _ _ _ h3,
    rtGo_cons_ok _ _ _ _ _ _ _ h4, rtGo_cons_ok _ _ _ _ _ _ _ h5, rtGo_nil]
  simp [Except.map]

/-- C1 as amended: the batch smoother emits nothing before the 6th sampled
cost, and from the 6th on emits exactly one value per sample, the uniform
arithmetic mean of the last six raw costs with stride-1 eviction
(`specSlidingMeans`); the real-time smoother with its effective
`cache_size = 1` (a 30 fps source) instead emits from the first sampled cost
on, each emission averaging only the current one-element cache, i.e. it
reproduces the raw costs. -/
theorem C1_amended :
    (∀ costs : List ℚ, batchSmooth costs = specSlidingMeans costs) ∧
    (∀ costs : List ℚ, rtSmooth 1 costs = costs) := by
  constructor
  · intro costs
    have h := bSmoothGo_warm costs [] 1 le_rfl (by omega) (by simp)
    simpa [batchSmooth, specSlidingMeans] using h
  · intro costs
    exact rtSmoothGo_one costs 1 le_rfl

end FallDet
